import Mathlib

/-!
Verification of `serial-json-rpc-arduino` (`src/board/serial_json_rpc.h`).

The header implements a line-delimited JSON-RPC 2.0 transport:
a byte-stream framer (`SerialJsonRpcBoard::loop`), a request
validator/dispatcher (`SerialJsonRpcBoard::_process_request`), four response
encoders (`send_result_string`, `send_result_bytes`, `send_result_longs`,
`send_error`) and the helper `json_array_to_byte_array`.

The embedding below models machine strings as `List Char`, JSON documents as
an inductive `JsonValue`, and the ArduinoJson library (an external
collaborator of the code) as (a) a serializer `serializeValue` that produces
the same minified output as `serializeJson`, with the library's escape table
(`"` `\` `\b` `\f` `\n` `\r` `\t`), and (b) coercion functions
(`variantAsInt`, `variantAsString`, `variantAsUInt8`) modelling
`as<int>`, `as<String>` and `as<uint8_t>`.
-/

namespace SerialJsonRpcLibrary

/-- `enum JsonRpcErrorCode : short` — SUCCESS. -/
def SUCCESS : Int := 0

/-- `enum JsonRpcErrorCode : short` — PARSE_ERROR. -/
def PARSE_ERROR : Int := -32700

/-- `enum JsonRpcErrorCode : short` — INVALID_REQUEST. -/
def INVALID_REQUEST : Int := -32600

/-- `enum JsonRpcErrorCode : short` — METHOD_NOT_FOUND. -/
def METHOD_NOT_FOUND : Int := -32601

/-- `enum JsonRpcErrorCode : short` — INVALID_PARAMS. -/
def INVALID_PARAMS : Int := -32602

/-- `enum JsonRpcErrorCode : short` — INTERNAL_ERROR. -/
def INTERNAL_ERROR : Int := -32603

/-- `enum JsonRpcErrorCode : short` — SERVER_ERROR. -/
def SERVER_ERROR : Int := -32000

/-- `enum JsonRpcErrorCode : short` — UNKNOWN_ERROR = SHRT_MAX. -/
def UNKNOWN_ERROR : Int := 32767

/-- The decimal digit character for `d % 10`. -/
def decChar (d : Nat) : Char := Char.ofNat (48 + d % 10)

/-- Fuel-indexed decimal rendering of a natural number (most significant
digit first); `fuel ≥ n` digits suffice since `fuel ≥ n ≥ digits(n)`. -/
def natToCharsAux : Nat → Nat → List Char
  | 0, _ => []
  | fuel + 1, n =>
    if n < 10 then [decChar n]
    else natToCharsAux fuel (n / 10) ++ [decChar (n % 10)]

/-- Decimal rendering of a natural number, as the serializer prints it. -/
def natToChars (n : Nat) : List Char := natToCharsAux (n + 1) n

/-- Decimal rendering of an integer, as the serializer prints it. -/
def intToChars (n : Int) : List Char :=
  if n < 0 then '-' :: natToChars (-n).toNat else natToChars n.toNat

/-- The generic JSON value tree produced by the (external) JSON library.
Numbers are modelled as integers: every value the claims exercise is
integral, and the board's own documents only ever hold integers and
strings. -/
inductive JsonValue where
  | null : JsonValue
  | boolean (b : Bool) : JsonValue
  | num (n : Int) : JsonValue
  | str (s : List Char) : JsonValue
  | arr (elems : List JsonValue) : JsonValue
  | obj (members : List (List Char × JsonValue)) : JsonValue

/-- First-match key lookup in a JSON object's member list. -/
def lookupMembers : List (List Char × JsonValue) → List Char → Option JsonValue
  | [], _ => none
  | (k, v) :: ms, key => if k = key then some v else lookupMembers ms key

/-- `doc[key]` on a JSON document: `some` value for a present key of an
object, `none` otherwise (a null `JsonVariant` in ArduinoJson). -/
def objLookup : JsonValue → List Char → Option JsonValue
  | JsonValue.obj ms, key => lookupMembers ms key
  | _, _ => none

/-- `doc.containsKey(key)`. -/
def containsKey (doc : JsonValue) (key : List Char) : Bool :=
  (objLookup doc key).isSome

/-- ArduinoJson's escape table for string serialization: `"` `\` `\b` `\f`
`\n` `\r` `\t` get two-character escapes; every other character is written
as itself. -/
def escapeChar (c : Char) : List Char :=
  if c = '"' then ['\\', '"']
  else if c = '\\' then ['\\', '\\']
  else if c = '\x08' then ['\\', 'b']
  else if c = '\x0c' then ['\\', 'f']
  else if c = '\n' then ['\\', 'n']
  else if c = '\r' then ['\\', 'r']
  else if c = '\t' then ['\\', 't']
  else [c]

/-- Escape a whole string body for serialization. -/
def escapeString (s : List Char) : List Char := s.flatMap escapeChar

mutual

/-- `serializeJson` of a document: minified JSON text, members and elements
in insertion order, strings escaped with `escapeChar`. -/
def serializeValue : JsonValue → List Char
  | JsonValue.null => ['n', 'u', 'l', 'l']
  | JsonValue.boolean b =>
      if b then ['t', 'r', 'u', 'e'] else ['f', 'a', 'l', 's', 'e']
  | JsonValue.num n => intToChars n
  | JsonValue.str s => '"' :: (escapeString s ++ ['"'])
  | JsonValue.arr es => '[' :: (serializeList es ++ [']'])
  | JsonValue.obj ms => '\x7b' :: (serializeMembers ms ++ ['\x7d'])

/-- Comma-separated serialization of array elements. -/
def serializeList : List JsonValue → List Char
  | [] => []
  | [v] => serializeValue v
  | v :: vs => serializeValue v ++ ',' :: serializeList vs

/-- Comma-separated serialization of object members. -/
def serializeMembers : List (List Char × JsonValue) → List Char
  | [] => []
  | [(k, v)] => '"' :: (escapeString k ++ '"' :: ':' :: serializeValue v)
  | (k, v) :: ms =>
      ('"' :: (escapeString k ++ '"' :: ':' :: serializeValue v)) ++
        ',' :: serializeMembers ms

end

/-- Leading decimal digits of a character list, accumulator style (models the
numeric part of the library's string-to-number coercion). -/
def parseDigits : List Char → Nat → Nat
  | [], acc => acc
  | c :: rest, acc =>
    if 48 ≤ c.toNat ∧ c.toNat ≤ 57 then parseDigits rest (acc * 10 + (c.toNat - 48))
    else acc

/-- Integer read from a character list: optional minus sign then leading
digits, 0 when there are none. -/
def parseIntChars : List Char → Int
  | '-' :: rest => -(parseDigits rest 0 : Int)
  | s => (parseDigits s 0 : Int)

/-- ArduinoJson `variant.as<int>()`: integers pass through, booleans become
0/1, numeric strings are parsed, everything else coerces to 0. -/
def variantAsInt : JsonValue → Int
  | JsonValue.num n => n
  | JsonValue.boolean b => if b then 1 else 0
  | JsonValue.str s => parseIntChars s
  | _ => 0

/-- ArduinoJson `variant.as<String>()`: strings pass through unquoted, every
other value becomes its serialized JSON text. -/
def variantAsString : JsonValue → List Char
  | JsonValue.str s => s
  | v => serializeValue v

/-- ArduinoJson `variant.as<uint8_t>()`: the integer coercion reduced
modulo 256 (unsigned 8-bit wrap-around). -/
def variantAsUInt8 (v : JsonValue) : Nat := (variantAsInt v % 256).toNat

/-- `_JSON_RPC_BUFFER_SIZE` — the fixed receive-buffer capacity. -/
def JSON_RPC_BUFFER_SIZE : Nat := 350

/-- `_END_OF_JSON_RPC_MESSAGE` — the message delimiter byte. -/
def END_OF_JSON_RPC_MESSAGE : Char := '\n'

/-- An observable emission of one `loop()` call at the framing level:
either the accumulated bytes of a complete message are handed to the
deserialize-and-process stage, or `send_error` is called (overflow). -/
inductive LoopEvent where
  | recognized (message : List Char)
  | errorSent (id : Int) (code : Int) (msg : List Char) (data : List Char)
deriving DecidableEq

/-- `SerialJsonRpcBoard::loop()`. State is the accumulated buffer contents
`buf` (`serial_read_buffer[0..serial_read_buffer_pos)`); `pending` is the
byte queue the transport currently has available. Returns the (at most one)
emitted event, the buffer contents after the call, and the bytes still
unread in the transport when the call returns. -/
def loop (buf : List Char) : List Char → Option LoopEvent × List Char × List Char
  | [] => (none, buf, [])
  | c :: rest =>
    if c = END_OF_JSON_RPC_MESSAGE then
      (some (LoopEvent.recognized buf), [], rest)
    else if JSON_RPC_BUFFER_SIZE ≤ buf.length then
      (some (LoopEvent.errorSent 0 INVALID_REQUEST
          ("Invalid Request".data) ("JSON RPC message is to large".data)),
        [], rest)
    else
      loop (buf ++ [c]) rest

/-- The exact `send_error` call `loop()` makes on buffer overflow
(line 96). -/
def overflow_event : LoopEvent :=
  LoopEvent.errorSent 0 INVALID_REQUEST
    ("Invalid Request".data) ("JSON RPC message is to large".data)

/-- The single outcome of `_process_request`: exactly one error response is
sent, or the dispatch callback is invoked exactly once. -/
inductive ProcessOutcome where
  | errorResponse (id : Int) (code : Int) (msg : List Char) (data : List Char)
  | dispatch (id : Int) (method : List Char) (params : List (List Char))
deriving DecidableEq

/-- Line 199: `request.containsKey("id") ? request["id"].as<int>() : 0`. -/
def extract_id (request : JsonValue) : Int :=
  match objLookup request ("id".data) with
  | some v => variantAsInt v
  | none => 0

/-- Line 201: `request["method"] | ""` — the string value when `method`
holds a string, the empty string otherwise. -/
def extract_method (request : JsonValue) : List Char :=
  match objLookup request ("method".data) with
  | some (JsonValue.str s) => s
  | _ => []

/-- Line 194: `strcmp(request["jsonrpc"], "2.0") == 0`. A non-string value
yields a null `const char*` from ArduinoJson (undefined in `strcmp`,
never a match); modelled as a mismatch. -/
def protocolVersionOk (request : JsonValue) : Bool :=
  match objLookup request ("jsonrpc".data) with
  | some (JsonValue.str s) => s == "2.0".data
  | _ => false

/-- `SerialJsonRpcBoard::_process_request`. -/
def process_request (request : JsonValue) : ProcessOutcome :=
  if !(containsKey request ("jsonrpc".data) && protocolVersionOk request) then
    ProcessOutcome.errorResponse 0 INVALID_REQUEST
      ("Invalid Request".data) ("Invalid protocol version".data)
  else
    let request_id := extract_id request
    let method := extract_method request
    match objLookup request ("params".data) with
    | some (JsonValue.arr elems) =>
        ProcessOutcome.dispatch request_id method (elems.map variantAsString)
    | _ =>
        ProcessOutcome.errorResponse request_id INVALID_PARAMS
          ("Invalid params".data) ("Array expected".data)

/-- `_get_response(id, data_size)` capacity: `34 + data_size + 10`. -/
def get_response_capacity (data_size : Nat) : Nat := 34 + data_size + 10

/-- The document `_get_response` builds with a `result` member attached:
`\x7b"jsonrpc":"2.0","id":id,"result":result\x7d`. -/
def resultResponseDoc (id : Int) (result : JsonValue) : JsonValue :=
  JsonValue.obj
    [("jsonrpc".data, JsonValue.str ("2.0".data)),
     ("id".data, JsonValue.num id),
     ("result".data, result)]

/-- `send_result_string` data size: `9 + strlen(string) + 2`. -/
def send_result_string_data_size (s : List Char) : Nat := 9 + s.length + 2

/-- `send_result_string` total capacity estimate. -/
def send_result_string_capacity (s : List Char) : Nat :=
  get_response_capacity (send_result_string_data_size s)

/-- The response document `send_result_string(id, string)` builds. -/
def send_result_string_doc (id : Int) (s : List Char) : JsonValue :=
  resultResponseDoc id (JsonValue.str s)

/-- `send_result_bytes` data size: `9 + 2 + 4 * buffer_size`. -/
def send_result_bytes_data_size (buffer_size : Nat) : Nat := 9 + 2 + 4 * buffer_size

/-- `send_result_bytes` total capacity estimate. -/
def send_result_bytes_capacity (buffer_size : Nat) : Nat :=
  get_response_capacity (send_result_bytes_data_size buffer_size)

/-- The response document `send_result_bytes(id, buffer, n)` builds: the
`uint8_t` elements are appended in order as JSON numbers. -/
def send_result_bytes_doc (id : Int) (buffer : List Nat) : JsonValue :=
  resultResponseDoc id
    (JsonValue.arr (buffer.map fun b : Nat => JsonValue.num (b : Int)))

/-- `send_result_longs` data size: `9 + 2 + 13 * buffer_size`. -/
def send_result_longs_data_size (buffer_size : Nat) : Nat := 9 + 2 + 13 * buffer_size

/-- `send_result_longs` total capacity estimate. -/
def send_result_longs_capacity (buffer_size : Nat) : Nat :=
  get_response_capacity (send_result_longs_data_size buffer_size)

/-- The response document `send_result_longs(id, buffer, n)` builds: the
`long` (32-bit on the AVR target) elements appended in order. -/
def send_result_longs_doc (id : Int) (buffer : List Int) : JsonValue :=
  resultResponseDoc id (JsonValue.arr (buffer.map JsonValue.num))

/-- `send_error` capacity estimate (line 173): `86 + strlen(error_message)
+ strlen(error_data)`, for the case where `error_data` is supplied. -/
def send_error_capacity (error_message error_data : List Char) : Nat :=
  86 + error_message.length + error_data.length

/-- The document `send_error(id, code, message, data)` builds: the `data`
member is attached only when `error_data` is non-null (line 180). -/
def errorResponseDoc (id : Int) (code : Int) (error_message : List Char)
    (error_data : Option (List Char)) : JsonValue :=
  JsonValue.obj
    [("jsonrpc".data, JsonValue.str ("2.0".data)),
     ("id".data, JsonValue.num id),
     ("error".data, JsonValue.obj
       ([("code".data, JsonValue.num code),
         ("message".data, JsonValue.str error_message)] ++
        match error_data with
        | some d => [("data".data, JsonValue.str d)]
        | none => []))]

/-- The full wire emission of `send_result_string`: serialized response,
then the delimiter byte, then `Serial.flush()`. -/
def send_result_string_wire (id : Int) (s : List Char) : List Char :=
  serializeValue (send_result_string_doc id s) ++ [END_OF_JSON_RPC_MESSAGE]

/-- The full wire emission of `send_error`: serialized response, then the
delimiter byte, then `Serial.flush()`. -/
def send_error_wire (id : Int) (code : Int) (error_message : List Char)
    (error_data : Option (List Char)) : List Char :=
  serializeValue (errorResponseDoc id code error_message error_data) ++
    [END_OF_JSON_RPC_MESSAGE]

/-- `doc.as<JsonArray>()`: the element list when the document holds an
array, the empty (null) array otherwise. -/
def asArray : JsonValue → List JsonValue
  | JsonValue.arr es => es
  | _ => []

/-- `(size_t)(-1)`: `size_t` is 16-bit on the AVR target (UNO R3, per the
code's own comment). -/
def SIZE_T_MINUS_ONE : Nat := 2 ^ 16 - 1

/-- `SerialJsonRpcBoard::json_array_to_byte_array`, over the decoded
document (JSON parsing is the external library capability). Returns the
returned `size_t` and the list of bytes written to `byte_array`. -/
def json_array_to_byte_array (doc : JsonValue) (array_size : Nat) :
    Nat × List Nat :=
  let json_array := asArray doc
  if json_array.length > array_size then (SIZE_T_MINUS_ONE, [])
  else (json_array.length, json_array.map variantAsUInt8)

/-- The value range of the C `int` / `long` types of the response encoders
(32-bit two's complement; the code's own size comments assume
"max signed 32"). -/
abbrev int32 (n : Int) : Prop := -(2 ^ 31) ≤ n ∧ n < 2 ^ 31

/-- A reference JSON reader's decoding of a single string-escape character. -/
def unescapeChar (c : Char) : Option Char :=
  if c = '"' then some '"'
  else if c = '\\' then some '\\'
  else if c = '/' then some '/'
  else if c = 'b' then some '\x08'
  else if c = 'f' then some '\x0c'
  else if c = 'n' then some '\n'
  else if c = 'r' then some '\r'
  else if c = 't' then some '\t'
  else none

/-- A reference JSON reader's decoding of a JSON string body (the text
between the quotes): resolves the two-character escapes, fails on a
dangling or unknown escape. -/
def unescapeString : List Char → Option (List Char)
  | [] => some []
  | c :: rest =>
    if c = '\\' then
      match rest with
      | [] => none
      | d :: rest2 =>
        match unescapeChar d with
        | some e => (unescapeString rest2).map (e :: ·)
        | none => none
    else (unescapeString rest).map (c :: ·)

/-! ## Framer lemmas -/

/-- Delimiter-free input that fits: every byte is stored and no event is
emitted. -/
theorem loop_no_delim (buf pre : List Char)
    (hpre : ∀ c ∈ pre, c ≠ END_OF_JSON_RPC_MESSAGE)
    (hcap : buf.length + pre.length ≤ JSON_RPC_BUFFER_SIZE) :
    loop buf pre = (none, buf ++ pre, []) := by
  induction pre generalizing buf with
  | nil => simp [loop]
  | cons c rest ih =>
    have hc : ¬ (c = END_OF_JSON_RPC_MESSAGE) := hpre c (by simp)
    simp only [List.length_cons] at hcap
    have hlen : ¬ (JSON_RPC_BUFFER_SIZE ≤ buf.length) := by omega
    rw [loop, if_neg hc, if_neg hlen,
      ih (buf ++ [c]) (fun d hd => hpre d (by simp [hd]))
        (by simp only [List.length_append, List.length_cons,
              List.length_nil]; omega)]
    simp

/-- A delimiter reached with the accumulated count within capacity yields
exactly one recognized message: the bytes since the last reset, delimiter
excluded; the buffer resets and draining stops right after the
delimiter. -/
theorem loop_delim (buf pre rest : List Char)
    (hpre : ∀ c ∈ pre, c ≠ END_OF_JSON_RPC_MESSAGE)
    (hcap : buf.length + pre.length ≤ JSON_RPC_BUFFER_SIZE) :
    loop buf (pre ++ END_OF_JSON_RPC_MESSAGE :: rest) =
      (some (LoopEvent.recognized (buf ++ pre)), [], rest) := by
  induction pre generalizing buf with
  | nil => simp [loop]
  | cons c pre' ih =>
    have hc : ¬ (c = END_OF_JSON_RPC_MESSAGE) := hpre c (by simp)
    simp only [List.length_cons] at hcap
    have hlen : ¬ (JSON_RPC_BUFFER_SIZE ≤ buf.length) := by omega
    rw [List.cons_append, loop, if_neg hc, if_neg hlen,
      ih (buf ++ [c]) (fun d hd => hpre d (by simp [hd]))
        (by simp only [List.length_append, List.length_cons,
              List.length_nil]; omega)]
    simp

/-- Delimiter-free input that exceeds capacity: the overflow error is
emitted once, the buffer resets, the overflowing byte is consumed and
draining stops. -/
theorem loop_overflow (buf input : List Char)
    (hpre : ∀ c ∈ input, c ≠ END_OF_JSON_RPC_MESSAGE)
    (hbuf : buf.length ≤ JSON_RPC_BUFFER_SIZE)
    (hcap : JSON_RPC_BUFFER_SIZE < buf.length + input.length) :
    loop buf input =
      (some overflow_event, [],
        input.drop (JSON_RPC_BUFFER_SIZE - buf.length + 1)) := by
  induction input generalizing buf with
  | nil => simp only [List.length_nil, Nat.add_zero] at hcap; omega
  | cons c rest ih =>
    have hc : ¬ (c = END_OF_JSON_RPC_MESSAGE) := hpre c (by simp)
    by_cases hfull : JSON_RPC_BUFFER_SIZE ≤ buf.length
    · have heq : JSON_RPC_BUFFER_SIZE - buf.length = 0 := by omega
      rw [loop, if_neg hc, if_pos hfull]
      simp [overflow_event, heq]
    · rw [loop, if_neg hc, if_neg hfull,
        ih (buf ++ [c]) (fun d hd => hpre d (by simp [hd])) (by simp; omega)
          (by simp only [List.length_append, List.length_cons,
                List.length_nil] at hcap ⊢; omega)]
      have h1 : JSON_RPC_BUFFER_SIZE - (buf ++ [c]).length + 1 =
          JSON_RPC_BUFFER_SIZE - buf.length := by simp; omega
      rw [h1]
      have h2 : JSON_RPC_BUFFER_SIZE - buf.length + 1 =
          (JSON_RPC_BUFFER_SIZE - buf.length) + 1 := rfl
      simp [h2, List.drop_succ_cons]

/-- If the bytes before a delimiter already exceed capacity, the call emits
the overflow error, not a recognized message. -/
theorem loop_delim_overflow (buf pre rest : List Char)
    (hpre : ∀ c ∈ pre, c ≠ END_OF_JSON_RPC_MESSAGE)
    (hbuf : buf.length ≤ JSON_RPC_BUFFER_SIZE)
    (hcap : JSON_RPC_BUFFER_SIZE < buf.length + pre.length) :
    (loop buf (pre ++ END_OF_JSON_RPC_MESSAGE :: rest)).1 =
      some overflow_event := by
  induction pre generalizing buf with
  | nil => simp only [List.length_nil, Nat.add_zero] at hcap; omega
  | cons c pre' ih =>
    have hc : ¬ (c = END_OF_JSON_RPC_MESSAGE) := hpre c (by simp)
    by_cases hfull : JSON_RPC_BUFFER_SIZE ≤ buf.length
    · rw [List.cons_append, loop, if_neg hc, if_pos hfull]
      simp [overflow_event]
    · rw [List.cons_append, loop, if_neg hc, if_neg hfull]
      exact ih (buf ++ [c]) (fun d hd => hpre d (by simp [hd]))
        (by simp; omega)
        (by simp only [List.length_append, List.length_cons,
              List.length_nil] at hcap ⊢; omega)

/-- Every byte list is delimiter-free or splits at its first delimiter. -/
theorem split_or_no_delim (input : List Char) :
    (∀ c ∈ input, c ≠ END_OF_JSON_RPC_MESSAGE) ∨
      ∃ pre rest, input = pre ++ END_OF_JSON_RPC_MESSAGE :: rest ∧
        ∀ c ∈ pre, c ≠ END_OF_JSON_RPC_MESSAGE := by
  induction input with
  | nil => left; simp
  | cons c rest ih =>
    by_cases hc : c = END_OF_JSON_RPC_MESSAGE
    · right
      exact ⟨[], rest, by simp [hc], by simp⟩
    · rcases ih with h | ⟨pre, r, heq, hp⟩
      · left
        intro d hd
        rcases List.mem_cons.mp hd with h1 | h1
        · exact h1 ▸ hc
        · exact h d h1
      · right
        refine ⟨c :: pre, r, by simp [heq], ?_⟩
        intro d hd
        rcases List.mem_cons.mp hd with h1 | h1
        · exact h1 ▸ hc
        · exact hp d h1

/-! ## Decimal length bounds -/

/-- `natToCharsAux` prints at most `k` digits for `n < 10 ^ k`. -/
theorem natToCharsAux_length_le (fuel : Nat) : ∀ n k : Nat, 1 ≤ k →
    n < 10 ^ k → n < fuel → (natToCharsAux fuel n).length ≤ k := by
  induction fuel with
  | zero => intro n k _ _ hf; omega
  | succ fuel ih =>
    intro n k hk hn hf
    rw [natToCharsAux]
    by_cases h10 : n < 10
    · rw [if_pos h10]
      simpa using hk
    · rw [if_neg h10]
      have hk2 : 2 ≤ k := by
        by_contra hlt
        have hk1 : k = 1 := by omega
        subst hk1
        simp only [pow_one] at hn
        omega
      have hpow : 10 ^ (k - 1) * 10 = 10 ^ k := by
        rw [← pow_succ]
        congr 1
        omega
      have hdiv : n / 10 < 10 ^ (k - 1) := by omega
      have hdivf : n / 10 < fuel := by omega
      have := ih (n / 10) (k - 1) (by omega) hdiv hdivf
      simp only [List.length_append, List.length_cons, List.length_nil]
      omega

/-- `natToChars` prints at most `k` digits for `n < 10 ^ k`. -/
theorem natToChars_length_le (n k : Nat) (hk : 1 ≤ k) (hn : n < 10 ^ k) :
    (natToChars n).length ≤ k :=
  natToCharsAux_length_le (n + 1) n k hk hn (by omega)

/-- `intToChars` prints at most `k + 1` characters when the magnitude is
below `10 ^ k`. -/
theorem intToChars_length_le (n : Int) (k : Nat) (hk : 1 ≤ k)
    (h : n.natAbs < 10 ^ k) : (intToChars n).length ≤ k + 1 := by
  rw [intToChars]
  by_cases hneg : n < 0
  · rw [if_pos hneg]
    have habs : (-n).toNat = n.natAbs := by omega
    simp only [List.length_cons, habs]
    have := natToChars_length_le n.natAbs k hk h
    omega
  · rw [if_neg hneg]
    have habs : n.toNat = n.natAbs := by omega
    rw [habs]
    have := natToChars_length_le n.natAbs k hk h
    omega

/-- A 32-bit integer prints in at most 11 characters. -/
theorem intToChars_length_le_int32 (n : Int) (h : int32 n) :
    (intToChars n).length ≤ 11 := by
  have h1 : n.natAbs < 10 ^ 10 := by
    rcases h with ⟨ha, hb⟩
    norm_num at ha hb ⊢
    omega
  simpa using intToChars_length_le n 10 (by norm_num) h1

/-- A nonnegative integer below `10 ^ k` prints in at most `k`
characters. -/
theorem intToChars_length_le_of_nonneg (n : Int) (k : Nat) (hk : 1 ≤ k)
    (h0 : 0 ≤ n) (h : n.natAbs < 10 ^ k) : (intToChars n).length ≤ k := by
  rw [intToChars, if_neg (by omega)]
  have habs : n.toNat = n.natAbs := by omega
  rw [habs]
  exact natToChars_length_le n.natAbs k hk h

/-! ## Exact serialized forms of the response documents -/

/-- The wire text of a result-response document. -/
theorem serializeValue_resultResponseDoc (id : Int) (r : JsonValue) :
    serializeValue (resultResponseDoc id r) =
      "\x7b\"jsonrpc\":\"2.0\",\"id\":".data ++ intToChars id ++
        ",\"result\":".data ++ serializeValue r ++ ['\x7d'] := by
  simp [resultResponseDoc, serializeValue, serializeMembers, escapeString,
    escapeChar, String.data]

/-- The wire text of an error-response document with no `data` supplied:
only `code` and `message` appear in the error object. -/
theorem serializeValue_errorResponseDoc_none (id code : Int)
    (error_message : List Char) :
    serializeValue (errorResponseDoc id code error_message none) =
      "\x7b\"jsonrpc\":\"2.0\",\"id\":".data ++ intToChars id ++
        ",\"error\":\x7b\"code\":".data ++ intToChars code ++
        ",\"message\":\"".data ++ escapeString error_message ++
        "\"\x7d\x7d".data := by
  simp [errorResponseDoc, serializeValue, serializeMembers, escapeString,
    escapeChar, String.data]

/-- The wire text of an error-response document with `data` supplied:
`code`, `message` and `data` all appear in the error object. -/
theorem serializeValue_errorResponseDoc_some (id code : Int)
    (error_message error_data : List Char) :
    serializeValue (errorResponseDoc id code error_message
        (some error_data)) =
      "\x7b\"jsonrpc\":\"2.0\",\"id\":".data ++ intToChars id ++
        ",\"error\":\x7b\"code\":".data ++ intToChars code ++
        ",\"message\":\"".data ++ escapeString error_message ++
        ("\",\"data\":\"".data ++ escapeString error_data ++
          "\"\x7d\x7d".data) := by
  simp [errorResponseDoc, serializeValue, serializeMembers, escapeString,
    escapeChar, String.data]

/-- Every serialized `uint8_t` array element fits in 3 bytes. -/
theorem bytes_elem_le (buffer : List Nat) (hb : ∀ b ∈ buffer, b < 256) :
    ∀ e ∈ buffer.map (fun b : Nat => JsonValue.num (b : Int)),
      (serializeValue e).length ≤ 3 := by
  intro e he
  rw [List.mem_map] at he
  obtain ⟨x, hx, hxe⟩ := he
  rw [← hxe]
  have hnum : serializeValue (JsonValue.num (x : Int)) =
      intToChars (x : Int) := by simp [serializeValue]
  rw [hnum]
  refine intToChars_length_le_of_nonneg _ 3 (by norm_num)
    (Int.natCast_nonneg x) ?_
  have habs : ((x : Int)).natAbs = x := Int.natAbs_ofNat x
  rw [habs]
  have hx2 := hb x hx
  norm_num
  omega

/-- Every serialized 32-bit `long` array element fits in 11 bytes. -/
theorem longs_elem_le (buffer : List Int) (hl : ∀ l ∈ buffer, int32 l) :
    ∀ e ∈ buffer.map JsonValue.num, (serializeValue e).length ≤ 11 := by
  intro e he
  rw [List.mem_map] at he
  obtain ⟨x, hx, hxe⟩ := he
  rw [← hxe]
  have hnum : serializeValue (JsonValue.num x) = intToChars x := by
    simp [serializeValue]
  rw [hnum]
  exact intToChars_length_le_int32 x (hl x hx)

/-- Comma-separated lists: if every element serializes within `w` bytes,
the list body fits in `(w + 1)` bytes per element (value plus
separator). -/
theorem serializeList_length_le (w : Nat) :
    ∀ es : List JsonValue, (∀ e ∈ es, (serializeValue e).length ≤ w) →
      (serializeList es).length ≤ (w + 1) * es.length
  | [], _ => by simp [serializeList]
  | [v], h => by
    have h1 := h v (by simp)
    simp only [serializeList, List.length_cons, List.length_nil]
    omega
  | v :: v2 :: vs2, h => by
    have h1 := h v (by simp)
    have h2 := serializeList_length_le w (v2 :: vs2)
      (fun e he => h e (by simp [he]))
    simp only [serializeList, List.length_append, List.length_cons] at h2 ⊢
    have hr : (w + 1) * (vs2.length + 1 + 1) =
        (w + 1) * (vs2.length + 1) + (w + 1) := by ring
    omega

/-! ## Claims about the framer -/

/-- Claim C1: in a `loop()` call starting from any reachable buffer state,
a message is recognized (handed to the parse-and-process stage) iff the
input splits at a first delimiter whose accumulated byte count since the
last reset is within the buffer capacity; the recognized message is exactly
the bytes between the previous reset point and that delimiter (delimiter
excluded); at most one message is processed per invocation (the remaining
transport bytes are left unread) and the position is reset to 0 before
returning. -/
theorem c1_framing (buf input : List Char)
    (hbuf : buf.length ≤ JSON_RPC_BUFFER_SIZE) :
    ((∃ m, (loop buf input).1 = some (LoopEvent.recognized m)) ↔
      ∃ pre rest, input = pre ++ END_OF_JSON_RPC_MESSAGE :: rest ∧
        (∀ c ∈ pre, c ≠ END_OF_JSON_RPC_MESSAGE) ∧
        buf.length + pre.length ≤ JSON_RPC_BUFFER_SIZE) ∧
    (∀ pre rest, input = pre ++ END_OF_JSON_RPC_MESSAGE :: rest →
      (∀ c ∈ pre, c ≠ END_OF_JSON_RPC_MESSAGE) →
      buf.length + pre.length ≤ JSON_RPC_BUFFER_SIZE →
      loop buf input =
        (some (LoopEvent.recognized (buf ++ pre)), [], rest)) := by
  refine ⟨⟨?_, ?_⟩, ?_⟩
  · rintro ⟨m, hm⟩
    rcases split_or_no_delim input with h | ⟨pre, rest, heq, hp⟩
    · by_cases hfit : buf.length + input.length ≤ JSON_RPC_BUFFER_SIZE
      · rw [loop_no_delim buf input h hfit] at hm
        simp at hm
      · rw [loop_overflow buf input h hbuf (by omega)] at hm
        simp [overflow_event] at hm
    · by_cases hfit : buf.length + pre.length ≤ JSON_RPC_BUFFER_SIZE
      · exact ⟨pre, rest, heq, hp, hfit⟩
      · rw [heq] at hm
        rw [loop_delim_overflow buf pre rest hp hbuf (by omega)] at hm
        simp [overflow_event] at hm
  · rintro ⟨pre, rest, heq, hp, hfit⟩
    rw [heq, loop_delim buf pre rest hp hfit]
    exact ⟨buf ++ pre, rfl⟩
  · intro pre rest heq hp hfit
    rw [heq, loop_delim buf pre rest hp hfit]

/-- Witness for C1 at a concrete buffer state and input. -/
theorem c1_framing_witness :
    loop ['x'] ("ab".data ++ END_OF_JSON_RPC_MESSAGE :: "cd".data) =
      (some (LoopEvent.recognized (['x'] ++ "ab".data)), [], "cd".data) :=
  (c1_framing ['x'] ("ab".data ++ END_OF_JSON_RPC_MESSAGE :: "cd".data)
      (by decide)).2 "ab".data "cd".data rfl (by decide) (by decide)

/-- Claim C2, amended: the overflow error fires only when the accumulated
input is strictly longer than the capacity (the 351st byte of a
delimiter-free message triggers it, an input of exactly 350 bytes does
not), and the error's detail text is the code's literal
`"JSON RPC message is to large"`, not `"message too large"`. With those
two amendments: feeding a delimiter-free input of length ≥ 351 through
`loop()` emits exactly one error response with id 0, code −32600
(InvalidRequest), message `"Invalid Request"` and that detail; the
position is reset to 0 and draining stops, and a valid message can be
accumulated immediately afterward. -/
theorem c2_overflow (input : List Char)
    (h1 : ∀ c ∈ input, c ≠ END_OF_JSON_RPC_MESSAGE)
    (h2 : JSON_RPC_BUFFER_SIZE + 1 ≤ input.length) :
    loop [] input =
      (some (LoopEvent.errorSent 0 INVALID_REQUEST
          ("Invalid Request".data) ("JSON RPC message is to large".data)),
        [], input.drop (JSON_RPC_BUFFER_SIZE + 1)) ∧
    ∀ msg rest, (∀ c ∈ msg, c ≠ END_OF_JSON_RPC_MESSAGE) →
      msg.length ≤ JSON_RPC_BUFFER_SIZE →
      loop [] (msg ++ END_OF_JSON_RPC_MESSAGE :: rest) =
        (some (LoopEvent.recognized msg), [], rest) := by
  constructor
  · have h := loop_overflow [] input h1 (by simp)
      (by simp only [List.length_nil, Nat.zero_add]; omega)
    simpa [overflow_event] using h
  · intro msg rest hm hlen
    simpa using loop_delim [] msg rest hm (by simpa using hlen)

/-- Witness for C2 (amended) at a 351-byte delimiter-free input. -/
theorem c2_overflow_witness :
    loop [] (List.replicate 351 'a') =
      (some (LoopEvent.errorSent 0 INVALID_REQUEST
          ("Invalid Request".data) ("JSON RPC message is to large".data)),
        [], []) := by
  have h := (c2_overflow (List.replicate 351 'a')
      (fun c hc => by rw [List.eq_of_mem_replicate hc]; decide)
      (by simp only [List.length_replicate, JSON_RPC_BUFFER_SIZE]; omega)).1
  have hd : (List.replicate 351 'a').drop (JSON_RPC_BUFFER_SIZE + 1) = [] :=
    List.drop_eq_nil_of_le
      (by simp only [List.length_replicate, JSON_RPC_BUFFER_SIZE]; omega)
  rw [hd] at h
  exact h

/-- Counterexample to C2 as stated: an input of length exactly 350 (= the
capacity) with no delimiter emits no overflow error at all, and when the
error does fire its detail text is the code's
`"JSON RPC message is to large"`, not the claimed `"message too large"`. -/
theorem c2_counterexample :
    (loop [] (List.replicate 350 'a')).1 = none ∧
    "JSON RPC message is to large".data ≠ "message too large".data ∧
    (loop [] (List.replicate 351 'a')).1 = some overflow_event := by
  refine ⟨?_, by decide, ?_⟩
  · rw [loop_no_delim [] (List.replicate 350 'a')
      (fun c hc => by rw [List.eq_of_mem_replicate hc]; decide)
      (by simp only [List.length_replicate, List.length_nil,
            JSON_RPC_BUFFER_SIZE]; omega)]
  · rw [loop_overflow [] (List.replicate 351 'a')
      (fun c hc => by rw [List.eq_of_mem_replicate hc]; decide)
      (by simp)
      (by simp only [List.length_replicate, List.length_nil,
            JSON_RPC_BUFFER_SIZE]; omega)]

/-! ## Claim C3: capacity estimates bound the serialized length -/

/-- Claim C3, amended: the pre-computed byte-size upper bound is ≥ the
actual serialized length of the response envelope for all four
constructors, PROVIDED the string payloads contain no characters that
JSON-escaping expands (for `send_result_bytes` and `send_result_longs`
the bound holds for all payloads of the declared C types). As stated the
claim is false: escaping can double a string's length while the estimate
only budgets one byte per character (see the counterexample). -/
theorem c3_capacity_bounds :
    (∀ (id : Int) (s : List Char), int32 id → escapeString s = s →
      (serializeValue (send_result_string_doc id s)).length ≤
        send_result_string_capacity s) ∧
    (∀ (id : Int) (buffer : List Nat), int32 id → (∀ b ∈ buffer, b < 256) →
      (serializeValue (send_result_bytes_doc id buffer)).length ≤
        send_result_bytes_capacity buffer.length) ∧
    (∀ (id : Int) (buffer : List Int), int32 id → (∀ l ∈ buffer, int32 l) →
      (serializeValue (send_result_longs_doc id buffer)).length ≤
        send_result_longs_capacity buffer.length) ∧
    (∀ (id code : Int) (m d : List Char), int32 id → int32 code →
      escapeString m = m → escapeString d = d →
      (serializeValue (errorResponseDoc id code m (some d))).length ≤
        send_error_capacity m d) := by
  have hpre : ("\x7b\"jsonrpc\":\"2.0\",\"id\":".data).length = 22 := by decide
  have hmid : ((",\"result\":".data : List Char)).length = 10 := by decide
  refine ⟨?_, ?_, ?_, ?_⟩
  · intro id s hid hesc
    have hidl := intToChars_length_le_int32 id hid
    have hstr : serializeValue (JsonValue.str s) =
        '"' :: (escapeString s ++ ['"']) := by simp [serializeValue]
    have hcap : send_result_string_capacity s = 55 + s.length := by
      simp only [send_result_string_capacity, get_response_capacity,
        send_result_string_data_size]
      omega
    rw [send_result_string_doc, serializeValue_resultResponseDoc, hstr,
      hesc, hcap]
    simp only [List.length_append, List.length_cons, List.length_nil,
      hpre, hmid]
    omega
  · intro id buffer hid hb
    have hidl := intToChars_length_le_int32 id hid
    have helem := bytes_elem_le buffer hb
    set es : List JsonValue :=
      buffer.map (fun b : Nat => JsonValue.num (b : Int)) with hes
    have heslen : es.length = buffer.length := by
      rw [hes, List.length_map]
    have hlist := serializeList_length_le 3 es helem
    rw [heslen] at hlist
    have harr : serializeValue (JsonValue.arr es) =
        '[' :: (serializeList es ++ [']']) := by simp [serializeValue]
    have hcap : send_result_bytes_capacity buffer.length =
        55 + 4 * buffer.length := by
      simp only [send_result_bytes_capacity, get_response_capacity,
        send_result_bytes_data_size]
      omega
    rw [send_result_bytes_doc, serializeValue_resultResponseDoc, harr, hcap]
    simp only [List.length_append, List.length_cons, List.length_nil,
      hpre, hmid]
    omega
  · intro id buffer hid hl
    have hidl := intToChars_length_le_int32 id hid
    have helem := longs_elem_le buffer hl
    set es : List JsonValue := buffer.map JsonValue.num with hes
    have heslen : es.length = buffer.length := by
      rw [hes, List.length_map]
    have hlist := serializeList_length_le 11 es helem
    rw [heslen] at hlist
    have harr : serializeValue (JsonValue.arr es) =
        '[' :: (serializeList es ++ [']']) := by simp [serializeValue]
    have hcap : send_result_longs_capacity buffer.length =
        55 + 13 * buffer.length := by
      simp only [send_result_longs_capacity, get_response_capacity,
        send_result_longs_data_size]
      omega
    rw [send_result_longs_doc, serializeValue_resultResponseDoc, harr, hcap]
    simp only [List.length_append, List.length_cons, List.length_nil,
      hpre, hmid]
    omega
  · intro id code m d hid hcode hm hd
    have hidl := intToChars_length_le_int32 id hid
    have hcodel := intToChars_length_le_int32 code hcode
    have h17 : ((",\"error\":\x7b\"code\":".data : List Char)).length = 17 := by
      decide
    have h12 : ((",\"message\":\"".data : List Char)).length = 12 := by decide
    have h10 : (("\",\"data\":\"".data : List Char)).length = 10 := by decide
    have h3 : (("\"\x7d\x7d".data : List Char)).length = 3 := by decide
    rw [serializeValue_errorResponseDoc_some, hm, hd]
    simp only [send_error_capacity, List.length_append, hpre, h17, h12,
      h10, h3]
    omega

/-- Witness for C3 (amended) at concrete payloads for all four
constructors. -/
theorem c3_capacity_bounds_witness :
    (serializeValue (send_result_string_doc 7 ("pong".data))).length ≤
      send_result_string_capacity ("pong".data) ∧
    (serializeValue (send_result_bytes_doc 1 [0, 255, 17])).length ≤
      send_result_bytes_capacity 3 ∧
    (serializeValue
        (send_result_longs_doc (-2) [2147483647, -2147483648])).length ≤
      send_result_longs_capacity 2 ∧
    (serializeValue (errorResponseDoc 0 (-32600) ("Invalid Request".data)
        (some ("Invalid protocol version".data)))).length ≤
      send_error_capacity ("Invalid Request".data)
        ("Invalid protocol version".data) :=
  ⟨c3_capacity_bounds.1 7 ("pong".data) (by decide) (by decide),
   c3_capacity_bounds.2.1 1 [0, 255, 17] (by decide) (by decide),
   c3_capacity_bounds.2.2.1 (-2) [2147483647, -2147483648] (by decide)
     (by decide),
   c3_capacity_bounds.2.2.2 0 (-32600) ("Invalid Request".data)
     ("Invalid protocol version".data) (by decide) (by decide) (by decide)
     (by decide)⟩

/-- Counterexample to C3 as stated: `send_result_string(0, s)` with `s` a
string of 21 backslashes serializes to 78 bytes (each backslash escapes to
two bytes) while the computed bound is 76 bytes. -/
theorem c3_counterexample :
    ¬ ((serializeValue
        (send_result_string_doc 0 (List.replicate 21 '\\'))).length ≤
      send_result_string_capacity (List.replicate 21 '\\')) := by
  decide

/-! ## Claims about `_process_request` -/

/-- Claim C4: a request lacking the `jsonrpc` key, or whose `jsonrpc`
value is not exactly the string `"2.0"`, yields exactly one InvalidRequest
error response (code −32600, message `"Invalid Request"`, data
`"Invalid protocol version"`) with id 0, regardless of any `id` member
present; the outcome is an error response, never a dispatch, so the
callback is not invoked. -/
theorem c4_invalid_version (request : JsonValue)
    (h : objLookup request ("jsonrpc".data) ≠
      some (JsonValue.str ("2.0".data))) :
    process_request request = ProcessOutcome.errorResponse 0
      INVALID_REQUEST ("Invalid Request".data)
      ("Invalid protocol version".data) := by
  have hcond : (containsKey request ("jsonrpc".data) &&
      protocolVersionOk request) = false := by
    cases hl : objLookup request ("jsonrpc".data) with
    | none => simp [containsKey, protocolVersionOk, hl]
    | some v =>
      cases v with
      | null => simp [containsKey, protocolVersionOk, hl]
      | boolean b => simp [containsKey, protocolVersionOk, hl]
      | num n => simp [containsKey, protocolVersionOk, hl]
      | str s =>
        have hs : ¬ (s = "2.0".data) := fun hs2 => h (by rw [hl, hs2])
        simp [containsKey, protocolVersionOk, hl, hs]
      | arr es => simp [containsKey, protocolVersionOk, hl]
      | obj ms => simp [containsKey, protocolVersionOk, hl]
  rw [process_request, hcond]
  simp

/-- Witness for C4: `jsonrpc` is `"1.0"` and an `id` of 5 is present, yet
the error carries id 0. -/
theorem c4_invalid_version_witness :
    process_request (JsonValue.obj
      [("jsonrpc".data, JsonValue.str ("1.0".data)),
       ("id".data, JsonValue.num 5)]) =
      ProcessOutcome.errorResponse 0 INVALID_REQUEST
        ("Invalid Request".data) ("Invalid protocol version".data) :=
  c4_invalid_version _ (by simp [objLookup, lookupMembers])

/-- Claim C5: with a valid `"jsonrpc":"2.0"` envelope and a `params` value
that is present but not a JSON array, the outcome is exactly one
InvalidParams error response (code −32602, message `"Invalid params"`,
data `"Array expected"`) carrying the id extracted from the request
(`extract_id`, which defaults to 0 when `id` is absent); the callback is
not invoked. -/
theorem c5_params_not_array (request : JsonValue) (v : JsonValue)
    (h1 : objLookup request ("jsonrpc".data) =
      some (JsonValue.str ("2.0".data)))
    (h2 : objLookup request ("params".data) = some v)
    (h3 : ∀ es, v ≠ JsonValue.arr es) :
    process_request request = ProcessOutcome.errorResponse
      (extract_id request) INVALID_PARAMS ("Invalid params".data)
      ("Array expected".data) := by
  have hcond : (containsKey request ("jsonrpc".data) &&
      protocolVersionOk request) = true := by
    simp [containsKey, protocolVersionOk, h1]
  rw [process_request, hcond]
  simp only [Bool.not_true, Bool.false_eq_true, if_false, h2]
  cases v with
  | null => rfl
  | boolean b => rfl
  | num n => rfl
  | str s => rfl
  | arr es => exact absurd rfl (h3 es)
  | obj ms => rfl

/-- Witness for C5: `params` is an object, the request's own id 3 is
echoed in the error. -/
theorem c5_params_not_array_witness :
    process_request (JsonValue.obj
      [("jsonrpc".data, JsonValue.str ("2.0".data)),
       ("id".data, JsonValue.num 3),
       ("params".data, JsonValue.obj [])]) =
      ProcessOutcome.errorResponse 3 INVALID_PARAMS
        ("Invalid params".data) ("Array expected".data) :=
  c5_params_not_array _ (JsonValue.obj []) rfl rfl
    (fun es h => by injection h)

/-- Claim C10 (implicit): with a valid `"jsonrpc":"2.0"` envelope and the
`params` key entirely absent, the outcome is the same InvalidParams error
(code −32602, message `"Invalid params"`, data `"Array expected"`) with
the extracted id, and the callback is never invoked — absence of `params`
is treated identically to a non-array `params`. -/
theorem c10_params_absent (request : JsonValue)
    (h1 : objLookup request ("jsonrpc".data) =
      some (JsonValue.str ("2.0".data)))
    (h2 : objLookup request ("params".data) = none) :
    process_request request = ProcessOutcome.errorResponse
      (extract_id request) INVALID_PARAMS ("Invalid params".data)
      ("Array expected".data) := by
  have hcond : (containsKey request ("jsonrpc".data) &&
      protocolVersionOk request) = true := by
    simp [containsKey, protocolVersionOk, h1]
  rw [process_request, hcond]
  simp only [Bool.not_true, Bool.false_eq_true, if_false, h2]

/-- Witness for C10: no `params` key at all, id 9 extracted and echoed. -/
theorem c10_params_absent_witness :
    process_request (JsonValue.obj
      [("jsonrpc".data, JsonValue.str ("2.0".data)),
       ("id".data, JsonValue.num 9),
       ("method".data, JsonValue.str ("ping".data))]) =
      ProcessOutcome.errorResponse 9 INVALID_PARAMS
        ("Invalid params".data) ("Array expected".data) :=
  c10_params_absent _ rfl rfl

/-- Claim C6: with a valid envelope and an array-valued `params`, the
callback is invoked exactly once with the extracted id (`request["id"]`
coerced to integer, 0 when absent), the extracted method
(`request["method"]` as a string, empty when absent) and the params as an
ordered sequence with each element coerced to its string
representation. -/
theorem c6_dispatch (request : JsonValue) (es : List JsonValue)
    (h1 : objLookup request ("jsonrpc".data) =
      some (JsonValue.str ("2.0".data)))
    (h2 : objLookup request ("params".data) = some (JsonValue.arr es)) :
    process_request request = ProcessOutcome.dispatch (extract_id request)
      (extract_method request) (es.map variantAsString) ∧
    (objLookup request ("id".data) = none → extract_id request = 0) ∧
    (objLookup request ("method".data) = none →
      extract_method request = []) := by
  refine ⟨?_, ?_, ?_⟩
  · have hcond : (containsKey request ("jsonrpc".data) &&
        protocolVersionOk request) = true := by
      simp [containsKey, protocolVersionOk, h1]
    rw [process_request, hcond]
    simp only [Bool.not_true, Bool.false_eq_true, if_false, h2]
  · intro hid
    rw [extract_id, hid]
  · intro hm
    rw [extract_method, hm]

/-- Witness for C6: params of mixed JSON types all reach the callback as
their textual forms. -/
theorem c6_dispatch_witness :
    process_request (JsonValue.obj
      [("jsonrpc".data, JsonValue.str ("2.0".data)),
       ("id".data, JsonValue.num 7),
       ("method".data, JsonValue.str ("ping".data)),
       ("params".data, JsonValue.arr
         [JsonValue.num 1, JsonValue.boolean true,
          JsonValue.str ("x".data), JsonValue.arr []])]) =
      ProcessOutcome.dispatch 7 ("ping".data)
        [['1'], "true".data, ['x'], "[]".data] := by
  have h := (c6_dispatch (JsonValue.obj
      [("jsonrpc".data, JsonValue.str ("2.0".data)),
       ("id".data, JsonValue.num 7),
       ("method".data, JsonValue.str ("ping".data)),
       ("params".data, JsonValue.arr
         [JsonValue.num 1, JsonValue.boolean true,
          JsonValue.str ("x".data), JsonValue.arr []])])
      [JsonValue.num 1, JsonValue.boolean true,
       JsonValue.str ("x".data), JsonValue.arr []] rfl rfl).1
  rw [h]
  decide

/-! ## Claims about the response encoders -/

/-- Unescaped characters decode to themselves. -/
theorem unescapeString_cons_ne (c : Char) (rest : List Char)
    (h : ¬ c = '\\') :
    unescapeString (c :: rest) = (unescapeString rest).map (c :: ·) := by
  rw [unescapeString.eq_def]
  simp [h]

/-- The reference reader inverts the serializer's escaping on every
string. -/
theorem unescape_escape (s : List Char) :
    unescapeString (escapeString s) = some s := by
  induction s with
  | nil => simp [escapeString, unescapeString]
  | cons c rest ih =>
    have hesc : escapeString (c :: rest) =
        escapeChar c ++ escapeString rest := by
      simp [escapeString]
    rw [hesc, escapeChar]
    split_ifs with h1 h2 h3 h4 h5 h6 h7
    · subst h1; simp [unescapeString, unescapeChar, ih]
    · subst h2; simp [unescapeString, unescapeChar, ih]
    · subst h3; simp [unescapeString, unescapeChar, ih]
    · subst h4; simp [unescapeString, unescapeChar, ih]
    · subst h5; simp [unescapeString, unescapeChar, ih]
    · subst h6; simp [unescapeString, unescapeChar, ih]
    · subst h7; simp [unescapeString, unescapeChar, ih]
    · rw [List.singleton_append, unescapeString_cons_ne c _ h2, ih]
      rfl

/-- Claim C7: `send_result_string(id, s)` puts on the wire the
`"jsonrpc"`/`"id"`/`"result"` envelope whose `result` member is the
quoted, escaped form of `s`; the reference JSON reader's string decoding
recovers `s` exactly (quotes and backslashes included); and the concrete
scenario `send_result_string(7, "pong")` produces exactly
`\x7b"jsonrpc":"2.0","id":7,"result":"pong"\x7d` followed by the
delimiter. -/
theorem c7_string_roundtrip (id : Int) (s : List Char) :
    send_result_string_wire id s =
      "\x7b\"jsonrpc\":\"2.0\",\"id\":".data ++ intToChars id ++
        ",\"result\":".data ++ ('"' :: (escapeString s ++ ['"'])) ++
        ['\x7d'] ++ [END_OF_JSON_RPC_MESSAGE] ∧
    unescapeString (escapeString s) = some s ∧
    send_result_string_wire 7 ("pong".data) =
      "\x7b\"jsonrpc\":\"2.0\",\"id\":7,\"result\":\"pong\"\x7d".data ++
        ['\n'] := by
  refine ⟨?_, unescape_escape s, by decide⟩
  rw [send_result_string_wire, send_result_string_doc,
    serializeValue_resultResponseDoc]
  have hstr : serializeValue (JsonValue.str s) =
      '"' :: (escapeString s ++ ['"']) := by simp [serializeValue]
  rw [hstr]

/-- Claim C8: `send_error` serializes the error object with the `data`
member present exactly when `error_data` is supplied (never as a JSON
null); both shapes carry `"jsonrpc":"2.0"`, echo the supplied id, and end
with the delimiter byte before the flush. -/
theorem c8_error_data_optional (id code : Int) (m : List Char) :
    (∀ d : List Char, send_error_wire id code m (some d) =
      "\x7b\"jsonrpc\":\"2.0\",\"id\":".data ++ intToChars id ++
        ",\"error\":\x7b\"code\":".data ++ intToChars code ++
        ",\"message\":\"".data ++ escapeString m ++
        ("\",\"data\":\"".data ++ escapeString d ++ "\"\x7d\x7d".data) ++
        [END_OF_JSON_RPC_MESSAGE]) ∧
    send_error_wire id code m none =
      "\x7b\"jsonrpc\":\"2.0\",\"id\":".data ++ intToChars id ++
        ",\"error\":\x7b\"code\":".data ++ intToChars code ++
        ",\"message\":\"".data ++ escapeString m ++ "\"\x7d\x7d".data ++
        [END_OF_JSON_RPC_MESSAGE] := by
  constructor
  · intro d
    rw [send_error_wire, serializeValue_errorResponseDoc_some]
  · rw [send_error_wire, serializeValue_errorResponseDoc_none]

/-! ## Claim about `json_array_to_byte_array` -/

/-- Claim C9: whenever the decoded array's element count exceeds
`array_size`, `json_array_to_byte_array` returns `(size_t)(-1)` — a value
distinct from every JSON-RPC error code — and writes nothing to the
output buffer (no partial write). -/
theorem c9_byte_array_overflow (doc : JsonValue) (array_size : Nat)
    (h : array_size < (asArray doc).length) :
    json_array_to_byte_array doc array_size = (SIZE_T_MINUS_ONE, []) ∧
    ∀ code ∈ [SUCCESS, PARSE_ERROR, INVALID_REQUEST, METHOD_NOT_FOUND,
      INVALID_PARAMS, INTERNAL_ERROR, SERVER_ERROR, UNKNOWN_ERROR],
      (SIZE_T_MINUS_ONE : Int) ≠ code := by
  constructor
  · have hgt : (asArray doc).length > array_size := h
    simp [json_array_to_byte_array, hgt]
  · decide

/-- Witness for C9: decoding `[1,2,3]` with `array_size = 2` fails with
the overflow indication and performs no write. -/
theorem c9_byte_array_overflow_witness :
    json_array_to_byte_array
      (JsonValue.arr [JsonValue.num 1, JsonValue.num 2, JsonValue.num 3])
      2 = (SIZE_T_MINUS_ONE, []) :=
  (c9_byte_array_overflow
    (JsonValue.arr [JsonValue.num 1, JsonValue.num 2, JsonValue.num 3])
    2 (by decide)).1

end SerialJsonRpcLibrary
